import Mathlib

/-!
Shallow embedding of the valgrind log analyzer (models.py, log_parser.py,
issue_classifier.py).  Strings are modelled as `List Char`; every line handed
to the parser comes from splitting the input on newlines and is subsequently
stripped, so line characters are newline-free and the regex dot (which excludes
newline) is modelled as "any character".  Python `dict` / `collections.Counter`
values are modelled as insertion-ordered association lists, and Python's stable
`sorted` as `List.mergeSort` with the corresponding boolean `≤` comparator.
-/

set_option maxHeartbeats 1000000

/-- Convert a string literal to the character-list representation used
throughout. -/
def strL (s : String) : List Char := s.toList

/-- models.py `IssueType`. -/
inductive IssueType where
  | DEFINITELY_LOST
  | POSSIBLY_LOST
  | STILL_REACHABLE
  | INVALID_READ
  | INVALID_WRITE
  | USE_AFTER_FREE
  | OTHER
deriving DecidableEq, Repr

/-- The seven members of `IssueType`, in declaration order. -/
def allIssueTypes : List IssueType :=
  [.DEFINITELY_LOST, .POSSIBLY_LOST, .STILL_REACHABLE, .INVALID_READ,
   .INVALID_WRITE, .USE_AFTER_FREE, .OTHER]

/-- models.py `IssueSeverity`. -/
inductive IssueSeverity where
  | CRITICAL
  | HIGH
  | MEDIUM
  | LOW
  | INFO
deriving DecidableEq, Repr

/-- The numeric value of each `IssueSeverity` enum member. -/
def IssueSeverity.value : IssueSeverity → Nat
  | .CRITICAL => 1
  | .HIGH => 2
  | .MEDIUM => 3
  | .LOW => 4
  | .INFO => 5

/-- models.py `StackFrame` (the `__str__` helper is not modelled). -/
structure StackFrame where
  address : List Char
  function_name : List Char
  library : List Char
  source_file : Option (List Char) := none
  line_number : Option Nat := none
deriving DecidableEq, Repr

/-- The `severity_mapping` dict of `MemoryIssue.__post_init__`, including the
`.get` default of `MEDIUM` (the dict covers every member, so the default is
never taken). -/
def severityMapping : IssueType → IssueSeverity
  | .DEFINITELY_LOST => .CRITICAL
  | .POSSIBLY_LOST => .HIGH
  | .INVALID_READ => .CRITICAL
  | .INVALID_WRITE => .CRITICAL
  | .USE_AFTER_FREE => .CRITICAL
  | .STILL_REACHABLE => .LOW
  | .OTHER => .MEDIUM

/-- models.py `MemoryIssue` (post-`__post_init__` state). -/
structure MemoryIssue where
  issue_type : IssueType
  bytes_count : Int
  blocks_count : Int
  loss_record : List Char
  stack_trace : List StackFrame
  source_location : Option (List Char) := none
  severity : IssueSeverity := .MEDIUM
deriving DecidableEq, Repr

/-- `MemoryIssue.__post_init__`: the severity is replaced by the mapped default
exactly when the (possibly explicitly supplied) severity equals `MEDIUM`, the
dataclass field default. -/
def postInitSeverity (t : IssueType) (sev : IssueSeverity) : IssueSeverity :=
  if sev = .MEDIUM then severityMapping t else sev

/-- Constructing a `MemoryIssue`: dataclass `__init__` followed by
`__post_init__`.  `sev` is the severity argument (`MEDIUM` when the caller
omits it, since that is the dataclass default). -/
def mkMemoryIssue (t : IssueType) (bytes blocks : Int) (lr : List Char)
    (trace : List StackFrame) (srcloc : Option (List Char))
    (sev : IssueSeverity) : MemoryIssue :=
  ⟨t, bytes, blocks, lr, trace, srcloc, postInitSeverity t sev⟩

/-! ### Character classes and low-level string helpers -/

/-- Python `\s` / `str.strip()` whitespace, restricted to ASCII (the log format
is ASCII). -/
def isSpace (c : Char) : Bool :=
  c = ' ' || c = '\t' || c = '\n' || c = '\r' || c = '\x0b' || c = '\x0c'

/-- Python `\d`, ASCII digits. -/
def isDigit (c : Char) : Bool := '0' ≤ c && c ≤ '9'

/-- The character class `[\d,]` of the leak patterns. -/
def isDigitComma (c : Char) : Bool := isDigit c || c = ','

/-- The class `[0-9A-F]` as used with `re.IGNORECASE` (both cases match). -/
def isHex (c : Char) : Bool :=
  isDigit c || ('A' ≤ c && c ≤ 'F') || ('a' ≤ c && c ≤ 'f')

/-- The class `[0-9A-F]` without `re.IGNORECASE` (upper case only), as used by
the address extraction in `_parse_stack_frame`. -/
def isHexUp (c : Char) : Bool := isDigit c || ('A' ≤ c && c ≤ 'F')

/-- Python `str.strip()`. -/
def pyStrip (s : List Char) : List Char :=
  ((s.dropWhile isSpace).reverse.dropWhile isSpace).reverse

/-- Python `str.startswith` on character lists. -/
def startsWith (pre s : List Char) : Bool := List.isPrefixOf pre s

/-- Python `sub in s` substring test. -/
def hasSub (sub : List Char) : List Char → Bool
  | [] => sub.isEmpty
  | c :: rest => List.isPrefixOf sub (c :: rest) || hasSub sub rest

/-- Python `int()` of a digit string (as produced by the `\d+`-shaped capture
groups after comma removal). -/
def natOfDigits (s : List Char) : Nat :=
  s.foldl (fun n c => n * 10 + (c.toNat - 48)) 0

/-- `int(g.replace(',', ''))` applied to a `[\d,]+` capture group. -/
def pyIntComma (g : List Char) : Int :=
  (natOfDigits (g.filter (fun c => c ≠ ',')) : Int)

/-! ### Deterministic matchers for the compiled regular expressions

Each regex of log_parser.py is embedded as a matcher that consumes from the
head of a suffix of the line.  In these patterns every greedy quantifier is
followed by a token disjoint from the quantified class, so maximal-munch
consumption coincides with the backtracking semantics; the two genuinely
backtracking spots (the `\s+(.+)` tail of the leak patterns and the lazy
groups of the stack-frame pattern) are treated explicitly below.
`re.search` is modelled by trying the matcher at every suffix, leftmost
first. -/

/-- Match a literal case-insensitively (all issue/frame patterns carry
`re.IGNORECASE`), returning the rest. -/
def litCI : List Char → List Char → Option (List Char)
  | [], s => some s
  | _ :: _, [] => none
  | c :: cs, d :: ds => if c.toLower = d.toLower then litCI cs ds else none

/-- Match a literal exactly (for the header pattern, compiled without
`re.IGNORECASE`). -/
def litEx : List Char → List Char → Option (List Char)
  | [], s => some s
  | _ :: _, [] => none
  | c :: cs, d :: ds => if c = d then litEx cs ds else none

/-- Match one-or-more characters of a class, maximal munch, returning the
consumed run and the rest. -/
def munch1 (p : Char → Bool) (s : List Char) : Option (List Char × List Char) :=
  let tk := s.takeWhile p
  if tk.isEmpty then none else some (tk, s.dropWhile p)

/-- Match a single optional character case-insensitively (the `s?` / `l?`
quantifiers, each followed by a token disjoint from the character). -/
def optCharCI (c : Char) (s : List Char) : List Char :=
  match s with
  | [] => []
  | d :: rest => if d.toLower = c then rest else d :: rest

/-- Try a matcher at every suffix, leftmost first: `re.search`. -/
def searchO {β : Type} (f : List Char → Option β) : List Char → Option β
  | [] => f []
  | c :: rest =>
    match f (c :: rest) with
    | some v => some v
    | none => searchO f rest

/-! ### Issue-announcement patterns (`_compile_issue_patterns`)

The non-capturing parts of the patterns are sequences of three kinds of
tokens: a (case-insensitive) literal, `\s+`, and a single optional character
(`s?` / `l?`).  In every pattern each quantified token is followed by a token
starting with a character disjoint from the quantified class, so maximal-munch
consumption coincides with Python's backtracking semantics.  A pattern is
represented as the list of its tokens and interpreted by `runToks`; capture
groups are handled at their use sites. -/

/-- One non-capturing regex token. -/
inductive Tok where
  | lit (w : List Char)
  | ws
  | digits
  | opt (c : Char)

/-- Run a token sequence at the head of `s`, returning the rest on success. -/
def runToks : List Tok → List Char → Option (List Char)
  | [], s => some s
  | .lit w :: ts, s =>
    match litCI w s with
    | some r => runToks ts r
    | none => none
  | .ws :: ts, s =>
    match munch1 isSpace s with
    | some (_, r) => runToks ts r
    | none => none
  | .digits :: ts, s =>
    match munch1 isDigit s with
    | some (_, r) => runToks ts r
    | none => none
  | .opt c :: ts, s => runToks ts (optCharCI c s)

/-- The optional clause `(?:\s+\([^)]+\))?` of the leak patterns: `[^)]+`
cannot cross a `)`, so the attempt is deterministic; when any part fails the
group is not taken and consumption restarts at `s`. -/
def optParen (s : List Char) : List Char :=
  match munch1 isSpace s with
  | none => s
  | some (_, s1) =>
    match s1 with
    | '(' :: s2 =>
      match munch1 (fun c => c ≠ ')') s2 with
      | none => s
      | some (_, s3) =>
        match s3 with
        | ')' :: s4 => s4
        | _ => s
    | _ => s

/-- The shared front of the three leak patterns,
`==\d+==\s+([\d,]+)(?:\s+\([^)]+\))?\s+bytes?\s+in\s+([\d,]+)\s+blocks?\s+are\s+`,
matched at the head of a suffix.  Returns the two capture groups and the rest
after `are\s+`. -/
def leakCoreAt (s : List Char) : Option (List Char × List Char × List Char) :=
  match runToks [.lit (strL ("==")), .digits, .lit (strL ("==")), .ws] s with
  | none => none
  | some s1 =>
    match munch1 isDigitComma s1 with
    | none => none
    | some (g1, s2) =>
      match runToks [.ws, .lit (strL ("byte")), .opt 's', .ws,
          .lit (strL ("in")), .ws] (optParen s2) with
      | none => none
      | some s4 =>
        match munch1 isDigitComma s4 with
        | none => none
        | some (g2, s5) =>
          match runToks [.ws, .lit (strL ("block")), .opt 's', .ws,
              .lit (strL ("are")), .ws] s5 with
          | none => none
          | some s6 => some (g1, g2, s6)

/-- The trailing `\s+(.+)` of the leak patterns, after the first (mandatory)
whitespace character.  `\s+` is greedy, longest first; when nothing is left
for `(.+)` it gives back one character at a time, and `(.+)` then greedily
takes the remainder of the line (lines are newline-free, so the dot matches
any remaining character). -/
def spThenRestAux : List Char → Option (List Char)
  | [] => none
  | d :: r =>
    if isSpace d then
      match spThenRestAux r with
      | some g => some g
      | none => some (d :: r)
    else some (d :: r)

/-- `\s+(.+)` at the head of `s`: at least one whitespace character, then the
(non-empty) capture group. -/
def spThenRest (s : List Char) : Option (List Char) :=
  match s with
  | [] => none
  | c :: rest => if isSpace c then spThenRestAux rest else none

/-- `definitely_lost` pattern at the head of a suffix: the leak core followed
by `definitel?y\s+lost\s+in\s+loss\s+record\s+(.+)`.  Returns (bytes group,
blocks group, loss-record group). -/
def defLostAt (s : List Char) : Option (List Char × List Char × List Char) :=
  match leakCoreAt s with
  | none => none
  | some (g1, g2, s1) =>
    match runToks [.lit (strL ("definite")), .opt 'l', .lit (strL ("y")), .ws,
        .lit (strL ("lost")), .ws, .lit (strL ("in")), .ws,
        .lit (strL ("loss")), .ws, .lit (strL ("record"))] s1 with
    | none => none
    | some s2 =>
      match spThenRest s2 with
      | none => none
      | some g3 => some (g1, g2, g3)

/-- `possibly_lost` pattern at the head of a suffix: the leak core followed by
`possibl?y\s+lost\s+in\s+loss\s+record\s+(.+)`. -/
def posLostAt (s : List Char) : Option (List Char × List Char × List Char) :=
  match leakCoreAt s with
  | none => none
  | some (g1, g2, s1) =>
    match runToks [.lit (strL ("possib")), .opt 'l', .lit (strL ("y")), .ws,
        .lit (strL ("lost")), .ws, .lit (strL ("in")), .ws,
        .lit (strL ("loss")), .ws, .lit (strL ("record"))] s1 with
    | none => none
    | some s2 =>
      match spThenRest s2 with
      | none => none
      | some g3 => some (g1, g2, g3)

/-- `still_reachable` pattern at the head of a suffix: the leak core followed
by `still\s+reachabl?e\s+in\s+loss\s+record\s+(.+)`. -/
def stillReachAt (s : List Char) : Option (List Char × List Char × List Char) :=
  match leakCoreAt s with
  | none => none
  | some (g1, g2, s1) =>
    match runToks [.lit (strL ("still")), .ws, .lit (strL ("reachab")),
        .opt 'l', .lit (strL ("e")), .ws, .lit (strL ("in")), .ws,
        .lit (strL ("loss")), .ws, .lit (strL ("record"))] s1 with
    | none => none
    | some s2 =>
      match spThenRest s2 with
      | none => none
      | some g3 => some (g1, g2, g3)

/-- `invalid_read` / `invalid_write` pattern at the head of a suffix:
`==\d+==\s+Invalid\s+<word>\s+of\s+size\s+(\d+)`.  Returns the size group. -/
def invalidAt (word : List Char) (s : List Char) : Option (List Char) :=
  match runToks [.lit (strL ("==")), .digits, .lit (strL ("==")), .ws,
      .lit (strL ("invalid")), .ws, .lit word, .ws, .lit (strL ("of")), .ws,
      .lit (strL ("size")), .ws] s with
  | none => none
  | some s1 =>
    match munch1 isDigit s1 with
    | none => none
    | some (g, _) => some g

/-- `LogParser._match_issue_line`: try each compiled pattern against the line
(`pattern.search`) in dict insertion order; a leak match yields
(type, bytes, blocks, stripped loss record), an invalid-access match yields
(type, size, 1, "N/A"). -/
def matchIssueLine (line : List Char) :
    Option (IssueType × Int × Int × List Char) :=
  match searchO defLostAt line with
  | some (g1, g2, g3) =>
    some (.DEFINITELY_LOST, pyIntComma g1, pyIntComma g2, pyStrip g3)
  | none =>
  match searchO posLostAt line with
  | some (g1, g2, g3) =>
    some (.POSSIBLY_LOST, pyIntComma g1, pyIntComma g2, pyStrip g3)
  | none =>
  match searchO stillReachAt line with
  | some (g1, g2, g3) =>
    some (.STILL_REACHABLE, pyIntComma g1, pyIntComma g2, pyStrip g3)
  | none =>
  match searchO (invalidAt (strL ("read"))) line with
  | some g => some (.INVALID_READ, (natOfDigits g : Int), 1, strL ("N/A"))
  | none =>
  match searchO (invalidAt (strL ("write"))) line with
  | some g => some (.INVALID_WRITE, (natOfDigits g : Int), 1, strL ("N/A"))
  | none => none

/-! ### Stack-frame pattern and decomposition (`_parse_stack_frame`) -/

/-- Whether the lazy-group tail of the stack-frame pattern can stop here: the
optional clause `(?:\s+\((.+?)\))?$` matches the remainder `t`.  It requires
`\s+`, then `(`, then a non-empty lazy group, then a `)` that must sit at the
very end of the line (because of the `$` anchor); the lazy group therefore
extends exactly to the final character. -/
def parenAtEnd (t : List Char) : Bool :=
  decide (t.takeWhile isSpace ≠ []) &&
    match t.dropWhile isSpace with
    | '(' :: b => decide (b.length ≥ 2) && (b.getLast? == some ')')
    | _ => false

/-- The clause capture group when `parenAtEnd` holds: the text between the
opening `(` and the final `)`. -/
def parenGroup (t : List Char) : List Char :=
  ((t.dropWhile isSpace).drop 1).dropLast

/-- Growing the lazy group `(.+?)`: `g1` is the text taken so far (at least
one character), `t` the remainder.  At each length, the engine first tries the
optional parenthesised clause, then (only when `t` is empty, because of `$`)
the clause-absent alternative; otherwise the lazy group grows by one
character. -/
def frameTailLoop : List Char → List Char → List Char × Option (List Char)
  | g1, [] => (g1, none)
  | g1, c :: rest =>
    if parenAtEnd (c :: rest) then (g1, some (parenGroup (c :: rest)))
    else frameTailLoop (g1 ++ [c]) rest

/-- The tail `\s*(.+?)(?:\s+\((.+?)\))?$` of the stack-frame pattern applied
to everything after the `:`.  `\s*` is greedy; when it reaches the end of the
line it gives back its final character so that `(.+?)` (which needs at least
one character) can match it. -/
def frameTail (s : List Char) : Option (List Char × Option (List Char)) :=
  match s.dropWhile isSpace with
  | c :: rest => some (frameTailLoop [c] rest)
  | [] =>
    match s.getLast? with
    | some c => some ([c], none)
    | none => none

/-- The stack-frame pattern
`==\d+==\s+(?:at|by)\s+0x[0-9A-F]+:\s*(.+?)(?:\s+\((.+?)\))?$`
(`re.IGNORECASE`) at the head of a suffix, returning the two capture groups.
`(?:at|by)` tries `at` first; the initial characters `a`/`b` are distinct, so
the alternation is deterministic. -/
def frameAt (s : List Char) : Option (List Char × Option (List Char)) :=
  match runToks [.lit (strL ("==")), .digits, .lit (strL ("==")), .ws] s with
  | none => none
  | some s1 =>
    match
      (match litCI (strL ("at")) s1 with
       | some r => some r
       | none => litCI (strL ("by")) s1) with
    | none => none
    | some s2 =>
      match runToks [.ws, .lit (strL ("0x"))] s2 with
      | none => none
      | some s3 =>
        match munch1 isHex s3 with
        | none => none
        | some (_, s4) =>
          match s4 with
          | ':' :: s5 => frameTail s5
          | _ => none

/-- The address extraction `re.search(r'0x[0-9A-F]+', line)` of
`_parse_stack_frame`: compiled without `re.IGNORECASE`, so only upper-case
hexadecimal letters belong to the class. -/
def addrAt (s : List Char) : Option (List Char) :=
  match s with
  | '0' :: 'x' :: r =>
    match munch1 isHexUp r with
    | some (ds, _) => some ('0' :: 'x' :: ds)
    | none => none
  | _ => none

/-- `LogParser._parse_function_and_library`. -/
def parseFunctionAndLibrary (function_info location_info : List Char) :
    List Char × List Char :=
  let function_name :=
    if function_info = strL ("???") then strL ("unknown") else function_info
  let library :=
    if location_info ≠ [] ∧ startsWith (strL ("in ")) location_info then
      pyStrip (location_info.drop 3)
    else strL ("unknown")
  (function_name, library)

/-- One attempt of the location regex `([^:]+):(\d+)$` at the head of a
suffix: a maximal non-empty colon-free run, a `:`, then digits running to the
very end. -/
def locAt (s : List Char) : Option (List Char × Nat) :=
  match munch1 (fun c => c ≠ ':') s with
  | none => none
  | some (a, r) =>
    match r with
    | ':' :: d =>
      match munch1 isDigit d with
      | some (ds, []) => some (a, natOfDigits ds)
      | _ => none
    | _ => none

/-- `LogParser._parse_location_info`. -/
def parseLocationInfo (location_info : List Char) :
    Option (List Char) × Option Nat :=
  if location_info = [] then (none, none)
  else if startsWith (strL ("in ")) location_info then (none, none)
  else
    match searchO locAt location_info with
    | some (a, n) => (some (pyStrip a), some n)
    | none =>
      if location_info ≠ [] ∧ location_info ≠ strL ("???") then
        (some location_info, none)
      else (none, none)

/-- `LogParser._parse_stack_frame`. -/
def parseStackFrame (line : List Char) : Option StackFrame :=
  match searchO frameAt line with
  | none => none
  | some (g1, g2) =>
    let function_info := pyStrip g1
    let location_info := match g2 with | some g => g | none => []
    let address :=
      match searchO addrAt line with
      | some a => a
      | none => strL ("unknown")
    let fl := parseFunctionAndLibrary function_info location_info
    let sl := parseLocationInfo location_info
    some ⟨address, fl.1, fl.2, sl.1, sl.2⟩

/-! ### Scan loop (`_parse_issues`, `_extract_stack_trace`,
`_get_source_location`) -/

/-- `LogParser._extract_stack_trace`, restructured over the sub-list of lines
following the announcement line (the source iterates indices
`start_index, …, len(lines)-1`; here `rest = lines[start_index:]`).  Returns
the decomposed frames and the number of consumed lines. -/
def extractStackTrace : List (List Char) → List StackFrame × Nat
  | [] => ([], 0)
  | l :: ls =>
    let line := pyStrip l
    if line.isEmpty ∨ ¬ startsWith (strL ("==")) line then ([], 0)
    else
      match parseStackFrame line with
      | some f =>
        let r := extractStackTrace ls
        (f :: r.1, r.2 + 1)
      | none =>
        if startsWith (strL ("==")) line ∧
            (hasSub (strL ("at 0x")) line ∨ hasSub (strL ("by 0x")) line) then
          let r := extractStackTrace ls
          (r.1, r.2 + 1)
        else ([], 0)

/-- First pass of `_get_source_location`: the first frame whose source file
and line number are both present and truthy (Python truthiness: a non-empty
string, a non-zero integer). -/
def findFileLine : List StackFrame → Option (List Char)
  | [] => none
  | f :: fs =>
    match f.source_file, f.line_number with
    | some sf, some n =>
      if sf ≠ [] ∧ n ≠ 0 then some (sf ++ ':' :: Nat.toDigits 10 n)
      else findFileLine fs
    | _, _ => findFileLine fs

/-- Second pass of `_get_source_location`: the first frame with a truthy
source file. -/
def findFile : List StackFrame → Option (List Char)
  | [] => none
  | f :: fs =>
    match f.source_file with
    | some sf => if sf ≠ [] then some sf else findFile fs
    | none => findFile fs

/-- `LogParser._get_source_location`. -/
def getSourceLocation (trace : List StackFrame) : Option (List Char) :=
  match findFileLine trace with
  | some r => some r
  | none => findFile trace

/-- The body of the `while i < len(lines)` loop of `LogParser._parse_issues`,
with the remaining lines `lines[i:]` as argument; `fuel` bounds the number of
iterations (the loop advances `i` by `lines_consumed + 1` on a match and by
`1` otherwise, so `len(lines)` iterations always suffice — proved below). -/
def parseIssuesAux : Nat → List (List Char) → List MemoryIssue
  | 0, _ => []
  | _, [] => []
  | fuel + 1, l :: rest =>
    let line := pyStrip l
    match matchIssueLine line with
    | some (t, bytes, blocks, lr) =>
      let tr := extractStackTrace rest
      mkMemoryIssue t bytes blocks lr tr.1 (getSourceLocation tr.1) .MEDIUM ::
        parseIssuesAux fuel (rest.drop tr.2)
    | none => parseIssuesAux fuel rest

/-- `LogParser._parse_issues`. -/
def parseIssues (lines : List (List Char)) : List MemoryIssue :=
  parseIssuesAux lines.length lines

/-! ### Format validation (`_validate_valgrind_format`, `parse_file`) -/

/-- A banner line: one on which the compiled header pattern
`==\d+==\s+Memcheck,` (no `re.IGNORECASE`) matches via `search`. -/
def headerAt (s : List Char) : Option Unit :=
  match litEx (strL ("==")) s with
  | none => none
  | some s1 =>
    match munch1 isDigit s1 with
    | none => none
    | some (_, s2) =>
      match litEx (strL ("==")) s2 with
      | none => none
      | some s3 =>
        match munch1 isSpace s3 with
        | none => none
        | some (_, s4) =>
          match litEx (strL ("Memcheck,")) s4 with
          | none => none
          | some _ => some ()

/-- Whether a line is a banner line. -/
def headerSearch (line : List Char) : Bool := (searchO headerAt line).isSome

/-- The lookahead loop of `_validate_valgrind_format`: `n` is the number of
lines already checked; the loop stops successfully on the first banner line
and unsuccessfully once 50 lines have been checked (or the file ends). -/
def validateLoop : Nat → List (List Char) → Bool
  | _, [] => false
  | n, l :: rest =>
    if headerSearch l then true
    else if n + 1 ≥ 50 then false
    else validateLoop (n + 1) rest

/-- `LogParser._validate_valgrind_format` as a Boolean (the source raises
`LogParserError` when this is false). -/
def validateValgrindFormat (lines : List (List Char)) : Bool :=
  validateLoop 0 lines

/-- The error message raised when the banner is absent. -/
def formatErrMsg : List Char :=
  strL ("File does not appear to be a valid Valgrind log file. Expected to find Valgrind header within first 50 lines.")

/-- The content-level behaviour of `LogParser.parse_file` after the file has
been read into its line sequence: validate the format (raising before any
issue extraction when it fails), then rescan the same lines for issues. -/
def parseLog (lines : List (List Char)) :
    Except (List Char) (List MemoryIssue) :=
  if validateValgrindFormat lines then .ok (parseIssues lines)
  else .error formatErrMsg

/-! ### Classifier (issue_classifier.py)

Python `dict` / `collections.Counter` values are insertion-ordered
association lists; `Counter.__missing__` returns 0, so `m[k] += v` updates the
entry in place when the key exists and appends `(k, v)` otherwise. -/

/-- `m[k] += v` on a `Counter` modelled as an association list. -/
def counterAdd {κ β : Type} [DecidableEq κ] [AddZeroClass β]
    (m : List (κ × β)) (k : κ) (v : β) : List (κ × β) :=
  match m with
  | [] => [(k, 0 + v)]
  | (k', v') :: rest =>
    if k' = k then (k', v' + v) :: rest else (k', v') :: counterAdd rest k v

/-- Dictionary lookup with a default. -/
def lookupD {κ β : Type} [DecidableEq κ] (m : List (κ × β)) (k : κ) (d : β) :
    β :=
  match m with
  | [] => d
  | (k', v') :: rest => if k = k' then v' else lookupD rest k d

/-- `grouped[k].append(v)` on a `defaultdict(list)` modelled as an
association list. -/
def groupAdd {κ β : Type} [DecidableEq κ] (m : List (κ × List β)) (k : κ)
    (v : β) : List (κ × List β) :=
  match m with
  | [] => [(k, [v])]
  | (k', l) :: rest =>
    if k' = k then (k', l ++ [v]) :: rest else (k', l) :: groupAdd rest k v

/-- `IssueClassifier._group_issues_by_type`. -/
def groupIssuesByType (issues : List MemoryIssue) :
    List (IssueType × List MemoryIssue) :=
  issues.foldl (fun m i => groupAdd m i.issue_type i) []

/-- models.py `Statistics` (the percentage helpers are not modelled). -/
structure Statistics where
  total_issues : Nat
  total_bytes_lost : Int
  total_blocks_lost : Int
  issues_by_type : List (IssueType × Nat)
  bytes_by_type : List (IssueType × Int)
  blocks_by_type : List (IssueType × Int)
  top_sources : List (List Char)
  severity_distribution : List (IssueSeverity × Nat)
deriving DecidableEq, Repr

/-- models.py `ClassifiedIssues`. -/
structure ClassifiedIssues where
  issues_by_type : List (IssueType × List MemoryIssue)
  statistics : Statistics
  all_issues : List MemoryIssue
deriving DecidableEq, Repr

/-- The source key contributed by one issue in
`IssueClassifier._identify_top_sources`: its (truthy) source location if
present, otherwise the synthesized "function (library)" key of the first
stack frame when that frame's function is not the unknown sentinel. -/
def topFrameKey (i : MemoryIssue) : Option (List Char) :=
  match i.stack_trace with
  | [] => none
  | top :: _ =>
    if top.function_name ≠ strL ("unknown") then
      some (top.function_name ++ ' ' :: '(' :: (top.library ++ [')']))
    else none

/-- The `if issue.source_location: … elif issue.stack_trace: …` dispatch of
`_identify_top_sources` (Python truthiness: an empty string is falsy). -/
def topSourceKey (i : MemoryIssue) : Option (List Char) :=
  match i.source_location with
  | some sl => if sl ≠ [] then some sl else topFrameKey i
  | none => topFrameKey i

/-- `Counter.most_common(n)`: entries sorted by count descending —
`sorted(items, key=count, reverse=True)` is stable, so equal counts keep
insertion order — truncated to `n`, keys only. -/
def mostCommon {κ : Type} (m : List (κ × Nat)) (n : Nat) : List κ :=
  ((m.mergeSort (fun a b => decide (b.2 ≤ a.2))).take n).map Prod.fst

/-- `IssueClassifier._identify_top_sources` (with its default `limit=10`). -/
def identifyTopSources (issues : List MemoryIssue) : List (List Char) :=
  let ctr := issues.foldl
    (fun m i =>
      match topSourceKey i with
      | some k => counterAdd m k (1 : Nat)
      | none => m) []
  mostCommon ctr 10

/-- The all-zero `Statistics` of `_create_empty_classification` /
`calculate_statistics` on empty input. -/
def emptyStatistics : Statistics := ⟨0, 0, 0, [], [], [], [], []⟩

/-- `IssueClassifier.calculate_statistics`.  The single aggregation loop of
the source is split into one fold per independent accumulator. -/
def calculateStatistics (issues : List MemoryIssue) : Statistics :=
  if issues = [] then emptyStatistics
  else
    ⟨issues.length,
     issues.foldl (fun a i => a + i.bytes_count) 0,
     issues.foldl (fun a i => a + i.blocks_count) 0,
     issues.foldl (fun m i => counterAdd m i.issue_type (1 : Nat)) [],
     issues.foldl (fun m i => counterAdd m i.issue_type i.bytes_count) [],
     issues.foldl (fun m i => counterAdd m i.issue_type i.blocks_count) [],
     identifyTopSources issues,
     issues.foldl (fun m i => counterAdd m i.severity (1 : Nat)) []⟩

/-- The sort key of `IssueClassifier.prioritize_issues`:
`(severity.value, -bytes_count, -blocks_count)`. -/
def priorityKey (i : MemoryIssue) : Nat × Int × Int :=
  (i.severity.value, -i.bytes_count, -i.blocks_count)

/-- Lexicographic `≤` on sort keys, the order realised by Python's stable
ascending `sorted` on tuples. -/
def tupLe (a b : Nat × Int × Int) : Bool :=
  decide (a.1 < b.1) ||
    (decide (a.1 = b.1) &&
      (decide (a.2.1 < b.2.1) ||
        (decide (a.2.1 = b.2.1) && decide (a.2.2 ≤ b.2.2))))

/-- The comparator induced by `priority_key`. -/
def leIssue (a b : MemoryIssue) : Bool := tupLe (priorityKey a) (priorityKey b)

/-- `IssueClassifier.prioritize_issues`: Python's `sorted` is a stable
ascending sort, i.e. a stable merge sort under the key's `≤`. -/
def prioritizeIssues (issues : List MemoryIssue) : List MemoryIssue :=
  issues.mergeSort leIssue

/-- `IssueClassifier.get_issues_by_severity`. -/
def getIssuesBySeverity (issues : List MemoryIssue) (sev : IssueSeverity) :
    List MemoryIssue :=
  issues.filter (fun i => decide (i.severity = sev))

/-- `IssueClassifier.get_critical_issues`: filter, then re-sort by
priority. -/
def getCriticalIssuesClassifier (issues : List MemoryIssue) :
    List MemoryIssue :=
  prioritizeIssues (getIssuesBySeverity issues .CRITICAL)

/-- `ClassifiedIssues.get_critical_issues`. -/
def ClassifiedIssues.get_critical_issues (ci : ClassifiedIssues) :
    List MemoryIssue :=
  ci.all_issues.filter (fun i => decide (i.severity = .CRITICAL))

/-- `ClassifiedIssues.get_issues_by_severity`. -/
def ClassifiedIssues.get_issues_by_severity (ci : ClassifiedIssues)
    (sev : IssueSeverity) : List MemoryIssue :=
  ci.all_issues.filter (fun i => decide (i.severity = sev))

/-- `IssueClassifier.classify_issues`. -/
def classifyIssues (issues : List MemoryIssue) : ClassifiedIssues :=
  if issues = [] then ⟨[], emptyStatistics, []⟩
  else
    ⟨(groupIssuesByType issues).map (fun p => (p.1, prioritizeIssues p.2)),
     calculateStatistics issues,
     prioritizeIssues issues⟩

/-! ### Concrete sample values used by counterexamples and witnesses -/

/-- A critical invalid-read issue losing 1 byte. -/
def sampleCritA : MemoryIssue :=
  ⟨.INVALID_READ, 1, 1, strL ("N/A"), [], none, .CRITICAL⟩

/-- A critical invalid-read issue losing 2 bytes (higher priority than
`sampleCritA`). -/
def sampleCritB : MemoryIssue :=
  ⟨.INVALID_READ, 2, 1, strL ("N/A"), [], none, .CRITICAL⟩

/-- Two issues with identical priority keys, distinguishable by their loss
records. -/
def sampleTieA : MemoryIssue :=
  ⟨.DEFINITELY_LOST, 8, 1, strL ("1 of 2"), [], none, .CRITICAL⟩

/-- See `sampleTieA`. -/
def sampleTieB : MemoryIssue :=
  ⟨.DEFINITELY_LOST, 8, 1, strL ("2 of 2"), [], none, .CRITICAL⟩

/-! ### Helper lemmas -/

theorem lookupD_counterAdd {κ β : Type} [DecidableEq κ] [AddCommMonoid β]
    (m : List (κ × β)) (k t : κ) (v : β) :
    lookupD (counterAdd m k v) t 0 =
      lookupD m t 0 + (if t = k then v else 0) := by
  induction m with
  | nil =>
    simp only [counterAdd, lookupD]
    by_cases h : t = k <;> simp [h, lookupD]
  | cons p rest ih =>
    obtain ⟨k', v'⟩ := p
    simp only [counterAdd]
    by_cases hk : k' = k
    · subst hk
      rw [if_pos rfl]
      by_cases ht : t = k' <;> simp [lookupD, ht]
    · rw [if_neg hk]
      by_cases ht : t = k'
      · subst ht
        simp [lookupD, hk]
      · simp [lookupD, ht, ih]

theorem mem_keys_counterAdd {κ β : Type} [DecidableEq κ] [AddCommMonoid β]
    (m : List (κ × β)) (k t : κ) (v : β) :
    t ∈ (counterAdd m k v).map Prod.fst ↔ t ∈ m.map Prod.fst ∨ t = k := by
  induction m with
  | nil => simp [counterAdd]
  | cons p rest ih =>
    obtain ⟨k', v'⟩ := p
    simp only [counterAdd]
    by_cases hk : k' = k
    · subst hk
      rw [if_pos rfl]
      simp only [List.map_cons, List.mem_cons]
      tauto
    · rw [if_neg hk]
      simp only [List.map_cons, List.mem_cons, ih]
      tauto

/-- Adding `v` at a single `IssueType` key raises the sum over all seven
members by `v`. -/
theorem sum_allIssueTypes_update {β : Type} [AddCommMonoid β]
    (g : IssueType → β) (k : IssueType) (v : β) :
    (allIssueTypes.map (fun t => g t + (if t = k then v else 0))).sum =
      (allIssueTypes.map g).sum + v := by
  cases k <;> simp [allIssueTypes] <;> abel

theorem sum_lookupD_foldl_counterAdd {β : Type} [AddCommMonoid β]
    (f : MemoryIssue → IssueType) (g : MemoryIssue → β)
    (issues : List MemoryIssue) (m : List (IssueType × β)) :
    (allIssueTypes.map (fun t =>
      lookupD (issues.foldl (fun m i => counterAdd m (f i) (g i)) m) t 0)).sum
      = (allIssueTypes.map (fun t => lookupD m t 0)).sum +
        (issues.map g).sum := by
  induction issues generalizing m with
  | nil => simp
  | cons i rest ih =>
    simp only [List.foldl_cons, ih, List.map_cons, List.sum_cons]
    have : (allIssueTypes.map (fun t => lookupD (counterAdd m (f i) (g i)) t 0)).sum
        = (allIssueTypes.map (fun t => lookupD m t 0)).sum + g i := by
      have h1 : (fun t => lookupD (counterAdd m (f i) (g i)) t 0)
          = fun t => lookupD m t 0 + (if t = f i then g i else 0) := by
        funext t
        exact lookupD_counterAdd m (f i) t (g i)
      rw [h1, sum_allIssueTypes_update]
    rw [this]
    abel

theorem mem_keys_foldl_counterAdd {β : Type} [AddCommMonoid β]
    (f : MemoryIssue → IssueType) (g : MemoryIssue → β)
    (issues : List MemoryIssue) (m : List (IssueType × β)) (t : IssueType) :
    (t ∈ (issues.foldl (fun m i => counterAdd m (f i) (g i)) m).map Prod.fst)
      ↔ t ∈ m.map Prod.fst ∨ ∃ i ∈ issues, f i = t := by
  induction issues generalizing m with
  | nil => simp
  | cons i rest ih =>
    simp only [List.foldl_cons, ih, mem_keys_counterAdd, List.mem_cons]
    constructor
    · rintro ((h | h) | ⟨j, hj, hf⟩)
      · exact Or.inl h
      · exact Or.inr ⟨i, Or.inl rfl, h.symm⟩
      · exact Or.inr ⟨j, Or.inr hj, hf⟩
    · rintro (h | ⟨j, (rfl | hj), hf⟩)
      · exact Or.inl (Or.inl h)
      · exact Or.inl (Or.inr hf.symm)
      · exact Or.inr ⟨j, hj, hf⟩

theorem foldl_add_eq_sum (g : MemoryIssue → Int) (issues : List MemoryIssue)
    (c : Int) :
    issues.foldl (fun a i => a + g i) c = c + (issues.map g).sum := by
  induction issues generalizing c with
  | nil => simp
  | cons i rest ih => simp [ih, add_assoc]

theorem tupLe_trans (a b c : Nat × Int × Int) (hab : tupLe a b)
    (hbc : tupLe b c) : tupLe a c := by
  obtain ⟨a1, a2, a3⟩ := a
  obtain ⟨b1, b2, b3⟩ := b
  obtain ⟨c1, c2, c3⟩ := c
  simp only [tupLe, Bool.or_eq_true, Bool.and_eq_true, decide_eq_true_eq]
    at hab hbc ⊢
  omega

theorem tupLe_total (a b : Nat × Int × Int) : tupLe a b || tupLe b a := by
  obtain ⟨a1, a2, a3⟩ := a
  obtain ⟨b1, b2, b3⟩ := b
  simp only [tupLe, Bool.or_eq_true, Bool.and_eq_true, decide_eq_true_eq]
  omega

theorem leIssue_trans (a b c : MemoryIssue) (hab : leIssue a b)
    (hbc : leIssue b c) : leIssue a c :=
  tupLe_trans _ _ _ hab hbc

theorem leIssue_total (a b : MemoryIssue) : leIssue a b || leIssue b a :=
  tupLe_total _ _

theorem tupLe_refl (a : Nat × Int × Int) : tupLe a a := by
  obtain ⟨a1, a2, a3⟩ := a
  simp [tupLe]

/-- The 50-line lookahead loop checks exactly the first `50 - n` remaining
lines. -/
theorem validateLoop_eq_any (lines : List (List Char)) :
    ∀ n, n < 50 →
      validateLoop n lines = (lines.take (50 - n)).any headerSearch := by
  induction lines with
  | nil => intro n _; simp [validateLoop]
  | cons l rest ih =>
    intro n hn
    simp only [validateLoop]
    by_cases hh : headerSearch l
    · have h50 : 50 - n = (50 - (n + 1)) + 1 := by omega
      simp [hh, h50]
    · by_cases hcap : n + 1 ≥ 50
      · have hn49 : n = 49 := by omega
        subst hn49
        simp [hh]
      · have h50 : 50 - n = (50 - (n + 1)) + 1 := by omega
        rw [if_neg hh, if_neg (by omega : ¬ n + 1 ≥ 50), h50]
        simp [hh, ih (n + 1) (by omega)]

/-- `parse Issues` fuel irrelevance: any fuel at least the number of lines
gives the same result. -/
theorem parseIssuesAux_fuel (f1 : Nat) :
    ∀ (f2 : Nat) (lines : List (List Char)), lines.length ≤ f1 →
      lines.length ≤ f2 → parseIssuesAux f1 lines = parseIssuesAux f2 lines := by
  induction f1 with
  | zero =>
    intro f2 lines h1 _
    have : lines = [] := List.length_eq_zero.mp (Nat.le_zero.mp h1)
    subst this
    cases f2 <;> rfl
  | succ f1 ih =>
    intro f2 lines h1 h2
    cases lines with
    | nil => cases f2 <;> rfl
    | cons l rest =>
      cases f2 with
      | zero => simp at h2
      | succ f2 =>
        have hr1 : rest.length ≤ f1 := by
          simpa using h1
        have hr2 : rest.length ≤ f2 := by
          simpa using h2
        have hdrop : (rest.drop (extractStackTrace rest).2).length ≤
            rest.length := by
          simp [List.length_drop]
        simp only [parseIssuesAux]
        cases hm : matchIssueLine (pyStrip l) with
        | none => exact ih f2 rest hr1 hr2
        | some r =>
          obtain ⟨t, bytes, blocks, lr⟩ := r
          rw [ih f2 (rest.drop (extractStackTrace rest).2)
            (Nat.le_trans hdrop hr1) (Nat.le_trans hdrop hr2)]

theorem extractStackTrace_le (rest : List (List Char)) :
    (extractStackTrace rest).2 ≤ rest.length := by
  induction rest with
  | nil => simp [extractStackTrace]
  | cons l ls ih =>
    simp only [extractStackTrace]
    split
    · simp
    · split
      · simpa using Nat.succ_le_succ ih
      · split
        · simpa using Nat.succ_le_succ ih
        · simp

theorem leIssue_consequence (a b : MemoryIssue) (h : leIssue a b) :
    a.severity.value ≤ b.severity.value ∧
      (a.severity.value = b.severity.value → b.bytes_count ≤ a.bytes_count) := by
  simp only [leIssue, tupLe, priorityKey, Bool.or_eq_true, Bool.and_eq_true,
    decide_eq_true_eq] at h
  omega

/-! ### Claims -/

/-- C1: the spec requires a constructed `MemoryIssue` to keep an explicitly
supplied severity and to default to the kind's table entry otherwise; the code
instead re-maps every `MEDIUM` severity — including an explicitly supplied
one — through the default table, so an explicit `MEDIUM` on a
definitely-lost issue comes out `CRITICAL`.  (The third conjunct records the
default behaviour for an omitted severity, which does follow the table.) -/
theorem c1_explicit_medium_is_overridden :
    (mkMemoryIssue .DEFINITELY_LOST 8 1 (strL ("1 of 1")) [] none
        .MEDIUM).severity = .CRITICAL
  ∧ IssueSeverity.CRITICAL ≠ IssueSeverity.MEDIUM
  ∧ (∀ t : IssueType,
      (mkMemoryIssue t 8 1 (strL ("1 of 1")) [] none .MEDIUM).severity =
        severityMapping t) := by
  refine ⟨rfl, by decide, fun t => rfl⟩

/-- C9: classifying the empty issue list returns immediately with all-zero
totals, empty per-kind/severity mappings, empty top sources, and empty
grouped and full issue lists. -/
theorem c9_classify_empty_issue_list :
    classifyIssues [] =
      ⟨[], ⟨0, 0, 0, [], [], [], [], []⟩, []⟩ := by
  rfl

/-- C8: the parse is gated on a banner line (one matched by the compiled
`==\d+==\s+Memcheck,` pattern) occurring among the first 50 lines: without
one the result is the format error and nothing else; with one the parse
succeeds with exactly the issues extracted from the full line list. -/
theorem c8_banner_gates_parsing (lines : List (List Char)) :
    (parseLog lines = .error formatErrMsg ↔
      ¬ (lines.take 50).any headerSearch = true)
  ∧ ((lines.take 50).any headerSearch = true →
      parseLog lines = .ok (parseIssues lines)) := by
  have hv : validateValgrindFormat lines = (lines.take 50).any headerSearch := by
    simpa using validateLoop_eq_any lines 0 (by omega)
  refine ⟨⟨?_, ?_⟩, ?_⟩
  · intro h hb
    unfold parseLog at h
    rw [hv, hb] at h
    simp at h
  · intro hb
    unfold parseLog
    rw [hv, Bool.not_eq_true] at *
    rw [hv] at hb ⊢
    simp [hb]
  · intro hb
    unfold parseLog
    rw [hv, hb]
    simp

/-- Witness for C8 at a concrete one-line log carrying the banner. -/
theorem c8_witness :
    parseLog [strL ("==123== Memcheck, a memory error detector")] =
      .ok (parseIssues [strL ("==123== Memcheck, a memory error detector")]) :=
  (c8_banner_gates_parsing _).2 (by decide)

/-- C10: the scan terminates — the stack-trace extractor consumes at most the
remaining lines, every loop iteration strictly shrinks the remaining line
list (the index advances by `lines_consumed + 1` or `1`), and any fuel of at
least the line count computes the loop's result. -/
theorem c10_scan_terminates :
    (∀ rest : List (List Char), (extractStackTrace rest).2 ≤ rest.length)
  ∧ (∀ (l : List Char) (rest : List (List Char)),
      (rest.drop (extractStackTrace rest).2).length < (l :: rest).length)
  ∧ (∀ (lines : List (List Char)) (fuel : Nat), lines.length ≤ fuel →
      parseIssuesAux fuel lines = parseIssues lines) := by
  refine ⟨extractStackTrace_le, ?_, ?_⟩
  · intro l rest
    simp only [List.length_drop, List.length_cons]
    omega
  · intro lines fuel h
    exact parseIssuesAux_fuel fuel lines.length lines h (Nat.le_refl _)

/-- Witness for C10 at concrete fuel and lines. -/
theorem c10_witness :
    parseIssuesAux 3 [strL ("abc")] = parseIssues [strL ("abc")] :=
  c10_scan_terminates.2.2 [strL ("abc")] 3 (by decide)

theorem sum_map_one (l : List MemoryIssue) :
    (l.map (fun _ => (1 : Nat))).sum = l.length := by
  induction l with
  | nil => simp
  | cons a l ih =>
    simp only [List.map_cons, List.sum_cons, List.length_cons, ih]
    omega

/-- C4: the `Statistics` built by the aggregator satisfies the sum
invariants — per-kind counts, bytes and blocks sum (over all seven kinds,
absent kinds contributing 0) to the respective totals — and its per-kind
mappings carry an entry for exactly the kinds occurring in the input. -/
theorem c4_statistics_invariants (issues : List MemoryIssue) :
    ((allIssueTypes.map (fun t =>
        lookupD (calculateStatistics issues).issues_by_type t 0)).sum =
      (calculateStatistics issues).total_issues)
  ∧ ((allIssueTypes.map (fun t =>
        lookupD (calculateStatistics issues).bytes_by_type t 0)).sum =
      (calculateStatistics issues).total_bytes_lost)
  ∧ ((allIssueTypes.map (fun t =>
        lookupD (calculateStatistics issues).blocks_by_type t 0)).sum =
      (calculateStatistics issues).total_blocks_lost)
  ∧ (∀ t : IssueType,
      (t ∈ (calculateStatistics issues).issues_by_type.map Prod.fst ↔
        ∃ i ∈ issues, i.issue_type = t)
    ∧ (t ∈ (calculateStatistics issues).bytes_by_type.map Prod.fst ↔
        ∃ i ∈ issues, i.issue_type = t)
    ∧ (t ∈ (calculateStatistics issues).blocks_by_type.map Prod.fst ↔
        ∃ i ∈ issues, i.issue_type = t)) := by
  by_cases h : issues = []
  · subst h
    refine ⟨?_, ?_, ?_, ?_⟩ <;>
      simp [calculateStatistics, emptyStatistics, allIssueTypes, lookupD]
  · simp only [calculateStatistics, if_neg h]
    refine ⟨?_, ?_, ?_, ?_⟩
    · rw [sum_lookupD_foldl_counterAdd (fun i => i.issue_type)
        (fun _ => (1 : Nat)) issues []]
      simp [allIssueTypes, lookupD, sum_map_one]
    · rw [sum_lookupD_foldl_counterAdd (fun i => i.issue_type)
        (fun i => i.bytes_count) issues [], foldl_add_eq_sum]
      simp [allIssueTypes, lookupD]
    · rw [sum_lookupD_foldl_counterAdd (fun i => i.issue_type)
        (fun i => i.blocks_count) issues [], foldl_add_eq_sum]
      simp [allIssueTypes, lookupD]
    · intro t
      refine ⟨?_, ?_, ?_⟩ <;>
        simpa using mem_keys_foldl_counterAdd (fun i => i.issue_type) _
          issues [] t

/-- C5 (amended): `prioritize_issues` returns a stable permutation of its
input sorted by the key (severity rank ascending, bytes descending, blocks
descending): the output is a permutation, pairwise ordered under the key's
`≤`, any equal-key sublist of the input survives as a sublist of the output
(stability), and consequently an earlier issue never has a larger severity
rank, nor fewer bytes at equal rank, than a later one. -/
theorem c5_prioritize_is_stable_sort (issues : List MemoryIssue) :
    (prioritizeIssues issues).Perm issues
  ∧ (prioritizeIssues issues).Pairwise (fun a b => leIssue a b = true)
  ∧ (∀ c : List MemoryIssue, c.Sublist issues →
      c.Pairwise (fun a b => priorityKey a = priorityKey b) →
      c.Sublist (prioritizeIssues issues))
  ∧ (prioritizeIssues issues).Pairwise (fun a b =>
      a.severity.value ≤ b.severity.value ∧
        (a.severity.value = b.severity.value →
          b.bytes_count ≤ a.bytes_count)) := by
  have hsorted : (prioritizeIssues issues).Pairwise
      (fun a b => leIssue a b = true) :=
    List.sorted_mergeSort leIssue_trans leIssue_total issues
  refine ⟨List.mergeSort_perm issues leIssue, hsorted, ?_, ?_⟩
  · intro c hsub hpair
    refine List.sublist_mergeSort leIssue_trans leIssue_total
      (hpair.imp ?_) hsub
    intro a b hk
    show leIssue a b = true
    unfold leIssue
    rw [hk]
    exact tupLe_refl _
  · exact hsorted.imp (fun h => leIssue_consequence _ _ h)

/-- Witness for C5: a concrete equal-key pair keeps its input order. -/
theorem c5_witness :
    ([sampleTieA, sampleTieB] : List MemoryIssue).Sublist
      (prioritizeIssues [sampleTieA, sampleTieB]) :=
  (c5_prioritize_is_stable_sort [sampleTieA, sampleTieB]).2.2.1
    [sampleTieA, sampleTieB] (List.Sublist.refl _) (by decide)

/-- C2 (amended): `get_issues_by_severity` (classifier and container) and the
container's `get_critical_issues` are order-preserving filters returning
exactly the issues with the requested severity; the classifier's
`get_critical_issues` returns the same multiset of critical issues but
re-sorted by the priority rule, so it may reorder them. -/
theorem c2_severity_filters (issues : List MemoryIssue)
    (ci : ClassifiedIssues) (sev : IssueSeverity) :
    (getIssuesBySeverity issues sev).Sublist issues
  ∧ (∀ i, i ∈ getIssuesBySeverity issues sev ↔
      i ∈ issues ∧ i.severity = sev)
  ∧ (ci.get_issues_by_severity sev).Sublist ci.all_issues
  ∧ (∀ i, i ∈ ci.get_issues_by_severity sev ↔
      i ∈ ci.all_issues ∧ i.severity = sev)
  ∧ ci.get_critical_issues.Sublist ci.all_issues
  ∧ (∀ i, i ∈ ci.get_critical_issues ↔
      i ∈ ci.all_issues ∧ i.severity = .CRITICAL)
  ∧ (getCriticalIssuesClassifier issues).Perm
      (getIssuesBySeverity issues .CRITICAL)
  ∧ (getCriticalIssuesClassifier issues).Pairwise
      (fun a b => leIssue a b = true) := by
  refine ⟨List.filter_sublist _, ?_, List.filter_sublist _, ?_,
    List.filter_sublist _, ?_,
    List.mergeSort_perm (getIssuesBySeverity issues .CRITICAL) leIssue,
    List.sorted_mergeSort leIssue_trans leIssue_total
      (getIssuesBySeverity issues .CRITICAL)⟩ <;>
  · intro i
    simp [getIssuesBySeverity, ClassifiedIssues.get_issues_by_severity,
      ClassifiedIssues.get_critical_issues, List.mem_filter]

/-- Counterexample to C2 as stated: the classifier's `get_critical_issues`
does reorder — on two critical issues of 1 and 2 bytes it does not return
the severity filter of the input in input order. -/
theorem c2_classifier_critical_reorders :
    getCriticalIssuesClassifier [sampleCritA, sampleCritB] ≠
      List.filter (fun i => decide (i.severity = .CRITICAL))
        [sampleCritA, sampleCritB] := by
  intro h
  have hsorted : (getCriticalIssuesClassifier [sampleCritA, sampleCritB]).Pairwise
      (fun a b => leIssue a b = true) :=
    List.sorted_mergeSort leIssue_trans leIssue_total
      (getIssuesBySeverity [sampleCritA, sampleCritB] .CRITICAL)
  rw [h] at hsorted
  have hfilter : List.filter (fun i => decide (i.severity = .CRITICAL))
      [sampleCritA, sampleCritB] = [sampleCritA, sampleCritB] := by decide
  rw [hfilter] at hsorted
  have hAB : leIssue sampleCritA sampleCritB = true :=
    (List.pairwise_cons.mp hsorted).1 sampleCritB (by simp)
  exact absurd hAB (by decide)

/-- C3: the spec requires the frame's address to equal the first hexadecimal
token of the line regardless of case, but the address extraction regex lacks
the `re.IGNORECASE` flag that the frame pattern itself carries: on a
lower-case address the extracted address is truncated at the first lower-case
hex letter ("0x4005" instead of "0x4005be"). -/
theorem c3_lowercase_address_truncated :
    parseStackFrame (strL ("==123==    by 0x4005be: main (test.c:10)")) =
      some ⟨strL ("0x4005"), strL ("main"), strL ("unknown"),
        some (strL ("test.c")), some 10⟩
  ∧ strL ("0x4005") ≠ strL ("0x4005be") := ⟨by decide, by decide⟩

/-- C6: the reference two-line example parses to exactly one definitely-lost
issue with bytes 48, blocks 2, loss record "5 of 10", severity Critical, one
fully decomposed frame and derived source location "test.c:10"; and thousands
separators are stripped before integer conversion. -/
theorem c6_reference_leak_example :
    parseIssues
      [strL ("==123== 48 (32 direct, 16 indirect) bytes in 2 blocks are definitely lost in loss record 5 of 10"),
       strL ("==123==    by 0x4005BE: main (test.c:10)")] =
      [⟨.DEFINITELY_LOST, 48, 2, strL ("5 of 10"),
        [⟨strL ("0x4005BE"), strL ("main"), strL ("unknown"),
          some (strL ("test.c")), some 10⟩],
        some (strL ("test.c:10")), .CRITICAL⟩]
  ∧ matchIssueLine
      (strL ("==123== 1,024 bytes in 1 blocks are definitely lost in loss record 3 of 7")) =
      some (.DEFINITELY_LOST, 1024, 1, strL ("3 of 7")) := ⟨by decide, by decide⟩

/-- C7: every invalid-access match carries blocks fixed to 1 and the literal
"N/A" loss record, and the single invalid-read example line yields exactly
one critical invalid-read issue of 4 bytes with an empty trace and no derived
source location. -/
theorem c7_invalid_access_fields :
    (∀ (line : List Char) (t : IssueType) (b blk : Int) (lr : List Char),
      matchIssueLine line = some (t, b, blk, lr) →
      (t = .INVALID_READ ∨ t = .INVALID_WRITE) →
      blk = 1 ∧ lr = strL ("N/A"))
  ∧ parseIssues [strL ("==123== Invalid read of size 4")] =
      [⟨.INVALID_READ, 4, 1, strL ("N/A"), [], none, .CRITICAL⟩] := by
  constructor
  · intro line t b blk lr h ht
    rcases ht with rfl | rfl <;>
    · unfold matchIssueLine at h
      repeat' split at h
      all_goals simp_all
  · decide

/-- Witness for C7 at the concrete invalid-read line. -/
theorem c7_witness : (1 : Int) = 1 ∧ strL ("N/A") = strL ("N/A") :=
  c7_invalid_access_fields.1 (strL ("==123== Invalid read of size 4"))
    .INVALID_READ 4 1 (strL ("N/A")) (by decide) (Or.inl rfl)
